import Mathlib

/-!
Shallow embedding of the `GameData::Config` resolution core of the
`s2u-gamedata` repository (src/src/gamedata.cpp, first revision variant, and
src/include/gamedata.hpp), together with theorems settling the frozen claims.

Machine integers are modelled as `Nat`/`Int` with explicit reduction modulo
`2 ^ 64` (`uintptr_t`) and signed reinterpretation (`ptrdiff_t`, `int32_t`)
where the C++ arithmetic wraps.  The KeyValues3 document is modelled as an
ordered tree of named members; external collaborators (module handles, the
pattern scanner, the vtable lookup) are structure fields supplied by the host.
-/

namespace GameData

/-- Embeds `GameData::Platform_t` (gamedata.hpp): the six OS×bitness compile targets,
in declaration order `PLAT_WINDOWS .. PLAT_MAC64`. -/
inductive Platform : Type where
  | windows : Platform
  | windows64 : Platform
  | linux : Platform
  | linux64 : Platform
  | mac : Platform
  | mac64 : Platform
deriving DecidableEq

/-- Embeds `s_aPlatformMemberNames` (gamedata.cpp lines 51-61): the canonical document
key for each platform. -/
def GetPlatformMemberName : Platform → String
  | .windows => "windows"
  | .windows64 => "win64"
  | .linux => "linux"
  | .linux64 => "linuxsteamrt64"
  | .mac => "mac"
  | .mac64 => "osx64"

/-- All platforms in enumeration order `PLAT_FIRST ..< PLAT_MAX`, as iterated
by the pruning loop in `LoadEngineAddressActions`. -/
def allPlatforms : List Platform :=
  [.windows, .windows64, .linux, .linux64, .mac, .mac64]

/-- Embeds `GameData::Game_t` (gamedata.hpp): the engine variants. -/
inductive Game : Type where
  | csgo : Game
  | dota : Game
deriving DecidableEq

/-- Embeds `GetSourceEngineMemberName` (gamedata.cpp lines 69-79): the canonical
top-level section key for the compiled engine variant. -/
def GetSourceEngineMemberName : Game → String
  | .csgo => "csgo"
  | .dota => "dota"

/-- ASCII-lowering used as the case-insensitive canonical form of a name
(`CUtlSymbolTableLarge_CI` interns names case-insensitively). -/
def asciiLower (s : String) : String :=
  s.map Char.toLower

/-- Embeds `uintptr_t` wrap: reduce an `Int` into `[0, 2 ^ 64)` as the 64-bit
unsigned arithmetic of the source does. -/
def wrap64 (z : Int) : Nat :=
  (z % (2 ^ 64 : Int)).toNat

/-- Embeds `static_cast<ptrdiff_t>(u64)`: reinterpret an unsigned 64-bit value as a
signed two's-complement 64-bit integer. -/
def toInt64 (n : Nat) : Int :=
  if n % 2 ^ 64 < 2 ^ 63 then ((n % 2 ^ 64 : Nat) : Int)
  else ((n % 2 ^ 64 : Nat) : Int) - 2 ^ 64

/-- Reduce an `Int` into the signed 32-bit range, as a `*(int32_t *)` load
yields. -/
def wrap32 (z : Int) : Int :=
  (z + 2 ^ 31) % 2 ^ 32 - 2 ^ 31

/-- Embeds `KeyValues3` (tier1 collaborator, used read/write by the loaders): an
ordered tree of named members whose leaves are strings or 64-bit numbers. -/
inductive KeyValues3 : Type where
  | str (s : String) : KeyValues3
  | num (n : Nat) : KeyValues3
  | obj (members : List (String × KeyValues3)) : KeyValues3

namespace KeyValues3

/-- The member list of an object node; leaves have no members
(`GetMemberCount` is `0` on them). -/
def members : KeyValues3 → List (String × KeyValues3)
  | .obj ms => ms
  | _ => []

/-- Embeds `GetString()` with default `""`. -/
def getString : KeyValues3 → String
  | .str s => s
  | _ => ""

/-- Embeds `GetString(pszDefault)`. -/
def getStringD : KeyValues3 → String → String
  | .str s, _ => s
  | _, d => d

/-- Embeds `GetUInt64()`: the numeric value of a number node reduced to 64 bits,
`0` otherwise. -/
def getUInt64 : KeyValues3 → Nat
  | .num n => n % 2 ^ 64
  | _ => 0

/-- Embeds `IsString()`. -/
def isString : KeyValues3 → Bool
  | .str _ => true
  | _ => false

end KeyValues3

/-- Embeds `KeyValues3::FindMember`: first member with the given name. -/
def findMemberL : List (String × KeyValues3) → String → Option KeyValues3
  | [], _ => none
  | (n, v) :: rest, key => if n = key then some v else findMemberL rest key

/-- Embeds `KeyValues3::FindMember` on a node. -/
def KeyValues3.FindMember (kv : KeyValues3) (key : String) : Option KeyValues3 :=
  findMemberL kv.members key

/-- Embeds `KeyValues3::RemoveMember` by name (member names are unique keys of the
document): drop the members carrying the given name. -/
def removeKeyL (ms : List (String × KeyValues3)) (key : String) :
    List (String × KeyValues3) :=
  ms.filter (fun m => !(m.1 == key))

/-- The platform keys of every platform other than the given one; the pruning
loop of `LoadEngineAddressActions` (gamedata.cpp lines 523-537) removes
exactly the members named by these. -/
def otherPlatformKeys (plat : Platform) : List String :=
  (allPlatforms.filter (fun p => !(p == plat))).map GetPlatformMemberName

/-- The "Remove an extra keys" loop (gamedata.cpp lines 523-537): drop every
member whose name is the platform key of a platform other than the current
one. -/
def prunePlats (plat : Platform) (ms : List (String × KeyValues3)) :
    List (String × KeyValues3) :=
  ms.filter (fun m => !((otherPlatformKeys plat).contains m.1))

/-- Association-list lookup backing `CUtlMap::Find`. -/
def lookupL {V : Type} : List (String × V) → String → Option V
  | [], _ => none
  | (k, v) :: rest, key => if k = key then some v else lookupL rest key

/-- Association-list insert-or-replace backing `Storage::Set`'s
find-then-assign / insert. -/
def setL {V : Type} : List (String × V) → String → V → List (String × V)
  | [], key, val => [(key, val)]
  | (k, v) :: rest, key, val =>
    if k = key then (key, val) :: rest else (k, v) :: setL rest key val

/-- Embeds `GameData::Config::Storage<K, V>` (gamedata.hpp lines 498-829): an
observable keyed store, a value map plus a vector of registered listeners
(identified here by opaque ids). -/
structure Storage (V : Type) : Type where
  values : List (String × V)
  listeners : List Nat

namespace Storage

/-- Embeds `Storage::Get(key, default)` (gamedata.hpp lines 741-748). -/
def Get {V : Type} (st : Storage V) (key : String) (dflt : V) : V :=
  (lookupL st.values key).getD dflt

/-- Embeds `Storage::Set` (gamedata.hpp lines 759-777): commit the value
(insert-or-replace), then fire `OnChanged`. -/
def Set {V : Type} (st : Storage V) (key : String) (val : V) : Storage V :=
  { st with values := setL st.values key val }

/-- Embeds `Storage::Set` together with the `OnChanged` notifications it issues: one
call per registered listener, carrying `(key, value)`, issued after the value
is committed (the listener vector read by `OnChanged` is that of the committed
store). -/
def SetEvents {V : Type} (st : Storage V) (key : String) (val : V) :
    Storage V × List (Nat × String × V) :=
  let st1 := st.Set key val
  (st1, st1.listeners.map (fun l => (l, key, val)))

/-- Embeds `Storage::ClearValues` (gamedata.hpp lines 721-724): purge the value map
only; the listener vector is untouched. -/
def ClearValues {V : Type} (st : Storage V) : Storage V :=
  { st with values := [] }

/-- Embeds `Storage::AddListener` (gamedata.hpp lines 791-794). -/
def AddListener {V : Type} (st : Storage V) (l : Nat) : Storage V :=
  { st with listeners := st.listeners ++ [l] }

/-- Embeds `CUtlVector::FastRemove(i)`: overwrite slot `i` with the last element and
drop the last slot. -/
def fastRemove (xs : List Nat) (i : Nat) : List Nat :=
  (xs.set i ((xs.getLast?).getD 0)).dropLast

/-- Embeds `Storage::RemoveListener` (gamedata.hpp lines 796-824): locate the first
matching listener; if found, `FastRemove` it and report `true`, else report
`false` with the store unchanged. -/
def RemoveListener {V : Type} (st : Storage V) (l : Nat) : Bool × Storage V :=
  let i := st.listeners.findIdx (fun x => x == l)
  if i < st.listeners.length then
    (true, { st with listeners := fastRemove st.listeners i })
  else (false, st)

end Storage

/-- Modelled from the spec: `CUtlSymbolTableLarge_CI::AddString` (tier1 SDK
code, not under src/).  The interner maps a name to the handle of its
case-insensitive canonical form, inserting the canonical form into the next
free slot when it is new; handles are slot indices.  Always succeeds. -/
def idxOfL : List String → String → Option Nat
  | [], _ => none
  | t :: rest, s => if t = s then some 0 else (idxOfL rest s).map (· + 1)

/-- Modelled from the spec: the symbol table state is the sequence of interned
canonical strings; `AddString` returns the existing handle or appends. -/
def AddString (tab : List String) (s : String) : Nat × List String :=
  match idxOfL tab (asciiLower s) with
  | some i => (i, tab)
  | none => (tab.length, tab ++ [asciiLower s])

/-- Embeds `GameData::Config::GetSymbol` (gamedata.cpp lines 1177-1180): delegates to
the case-insensitive symbol table's `AddString`. -/
def GetSymbol (tab : List String) (s : String) : Nat × List String :=
  AddString tab s

/-- Interning a name into the symbol table, keeping only the table (the
handle is determined by the canonical spelling, see `claim_C8_symbols`). -/
def internString (tab : List String) (s : String) : List String :=
  (AddString tab s).2

/-- Embeds `GameData::Config`'s owned state (gamedata.hpp lines 874-879): the
case-insensitive symbol table and the three observable stores.  Store keys
are the canonical (ASCII-lowered) spelling of the interned symbol, which is
in bijection with the symbol handle. -/
structure ConfigState : Type where
  symtab : List String
  addrs : Storage Nat
  keys : Storage KeyValues3
  offs : Storage Int

/-- Embeds `Config::SetAddress` via `GetSymbol` as the loaders call it:
`SetAddress(GetSymbol(name), value)`. -/
def setAddress (cfg : ConfigState) (name : String) (a : Nat) : ConfigState :=
  { cfg with
    symtab := internString cfg.symtab name
    addrs := cfg.addrs.Set (asciiLower name) a }

/-- Embeds `Config::SetKey` via `GetSymbol`. -/
def setKeyVal (cfg : ConfigState) (name : String) (v : KeyValues3) : ConfigState :=
  { cfg with
    symtab := internString cfg.symtab name
    keys := cfg.keys.Set (asciiLower name) v }

/-- Embeds `Config::SetOffset` via `GetSymbol`. -/
def setOffset (cfg : ConfigState) (name : String) (v : Int) : ConfigState :=
  { cfg with
    symtab := internString cfg.symtab name
    offs := cfg.offs.Set (asciiLower name) v }

/-- Embeds `Config::ClearValues` (gamedata.cpp lines 148-153, first variant): empty
the Addresses, Keys and Offsets stores; symbol table and listeners are
untouched. -/
def ClearValues (cfg : ConfigState) : ConfigState :=
  { cfg with
    addrs := cfg.addrs.ClearValues
    keys := cfg.keys.ClearValues
    offs := cfg.offs.ClearValues }

/-- Embeds `Config::ClearValues` (gamedata.cpp lines 748-752, second variant): that
revision empties only the Addresses and Offsets stores — the Keys store is
not cleared. -/
def ClearValuesRev2 (cfg : ConfigState) : ConfigState :=
  { cfg with
    addrs := cfg.addrs.ClearValues
    offs := cfg.offs.ClearValues }

/-- Embeds `isspace` on the C locale's six whitespace characters, as `strtol` skips
them. -/
def isSpaceC (c : Char) : Bool :=
  c == ' ' || c == '\t' || c == '\n' || c == Char.ofNat 11 || c == Char.ofNat 12 || c == '\r'

/-- Value of a character as a digit, covering bases up to 16. -/
def hexDigitVal? (c : Char) : Option Nat :=
  if '0' ≤ c ∧ c ≤ '9' then some (c.toNat - 48)
  else if 'a' ≤ c ∧ c ≤ 'f' then some (c.toNat - 87)
  else if 'A' ≤ c ∧ c ≤ 'F' then some (c.toNat - 55)
  else none

/-- Embeds `strtol`'s digit accumulation: consume the longest run of digits valid in
the base, accumulating the magnitude. -/
def parseDigits (b : Nat) : List Char → Nat → Nat
  | [], acc => acc
  | c :: cs, acc =>
    match hexDigitVal? c with
    | some d => if d < b then parseDigits b cs (acc * b + d) else acc
    | none => acc

/-- Whether the head of the list is a hexadecimal digit. -/
def hexHead : List Char → Bool
  | c :: _ => (hexDigitVal? c).isSome
  | [] => false

/-- Embeds `strtol` base-0 prefix detection: `0x`/`0X` followed by a hex digit means
base 16 (consuming the prefix); a leading `0` otherwise means base 8; any
other start means base 10. -/
def pickBase (cs : List Char) : Nat × List Char :=
  match cs with
  | c :: rest =>
    if c = '0' then
      match rest with
      | c2 :: rest2 =>
        if (c2 = 'x' ∨ c2 = 'X') ∧ hexHead rest2 = true then (16, rest2)
        else (8, rest)
      | [] => (8, [])
    else (10, cs)
  | [] => (10, [])

/-- Embeds `strtol`'s optional sign. -/
def signSplit (cs : List Char) : Int × List Char :=
  match cs with
  | c :: rest =>
    if c = '-' then (-1, rest) else if c = '+' then (1, rest) else (1, cs)
  | [] => (1, [])

/-- Embeds `strtol(s, NULL, 0)` under LP64 (`long` is 64-bit): skip whitespace, read
an optional sign, detect the base from the prefix, accumulate digits, clamp
to `[LONG_MIN, LONG_MAX]`. -/
def strtolBase0 (s : String) : Int :=
  let cs := s.data.dropWhile isSpaceC
  let sp := signSplit cs
  let bp := pickBase sp.2
  let m := parseDigits bp.1 bp.2 0
  if sp.1 ≥ 0 then (min m (2 ^ 63 - 1) : Nat) else -((min m (2 ^ 63) : Nat) : Int)

/-- Embeds `GameData::ReadOffset` (gamedata.cpp lines 117-120):
`static_cast<ptrdiff_t>(strtol(pszValue, NULL, 0))`. -/
def ReadOffset (s : String) : Int :=
  strtolBase0 s

/-- The value of a digit string read in base `b`, every character taken as a
digit. -/
def digitsVal (b : Nat) (cs : List Char) : Nat :=
  cs.foldl (fun a c => a * b + (hexDigitVal? c).getD 0) 0

/-- The claim's stated parse (stated from the spec's words, for comparison
with `ReadOffset`): a `0x` prefix means hexadecimal and otherwise the string
is parsed as decimal. -/
def readOffsetClaimSpec (s : String) : Int :=
  if "0x".data.isPrefixOf s.data then (digitsVal 16 (s.data.drop 2) : Nat)
  else (digitsVal 10 s.data : Nat)

/-- The readable memory of the scanned modules, as the `read`/`read_offs32`
address actions dereference it: a pointer-width load and a signed 32-bit
load.  Loaded values are normalised to their machine width at the use site. -/
structure Mem : Type where
  read64 : Nat → Nat
  read32 : Nat → Int

/-- The context a `LoadEngineAddressActions` call runs in: the compile-time
platform, the process memory, and the current contents of the Addresses
store (for `"signature"` references). -/
structure ActCtx : Type where
  plat : Platform
  mem : Mem
  addrs : List (String × Nat)

/-- Result of a `LoadEngineAddressActions` call: the verdict, the final
cursor, and the messages appended to the caller's message vector. -/
structure ActRes : Type where
  ok : Bool
  cur : Nat
  msgs : List String
deriving DecidableEq

/-- Embeds `GetAddress(GetSymbol(name))` as the action interpreter reads it: the
stored address for the canonical name, the null `CMemory{}` (here `0`) when
absent.  `!pSigAddress` is the nullness test on this value. -/
def getAddrStored (addrs : List (String × Nat)) (name : String) : Nat :=
  (lookupL addrs (asciiLower name)).getD 0

lemma sizeOf_filter_le (p : String × KeyValues3 → Bool)
    (l : List (String × KeyValues3)) : sizeOf (l.filter p) ≤ sizeOf l := by
  induction l with
  | nil => simp [List.filter]
  | cons a l ih =>
    simp only [List.filter_cons]
    split
    · simp only [List.cons.sizeOf_spec]
      omega
    · simp only [List.cons.sizeOf_spec]
      omega

mutual

/-- Embeds `GameData::Config::LoadEngineAddressActions` (gamedata.cpp lines
487-600): fail on an empty member set; consume a `"signature"` member to
initialise the cursor (failing the entry when the referenced address is
null); prune every other-platform member; succeed with the current cursor
when nothing remains; otherwise walk the remaining members in order. -/
def LoadEngineAddressActions (ctx : ActCtx) (name : String) (cur : Nat)
    (kv : KeyValues3) : ActRes :=
  match kv with
  | .obj ms =>
    if ms.isEmpty then ⟨false, cur, ["Section is empty"]⟩
    else
      match findMemberL ms "signature" with
      | some sv =>
        let a := getAddrStored ctx.addrs sv.getString
        if a = 0 then
          ⟨false, cur,
            ["Failed to get \"signature\" signature into \"" ++ name ++ "\""]⟩
        else
          let ms2 := prunePlats ctx.plat (removeKeyL ms "signature")
          if ms2.isEmpty then ⟨true, a, []⟩
          else walkActions ctx name a ms2
      | none =>
        let ms2 := prunePlats ctx.plat ms
        if ms2.isEmpty then ⟨true, cur, []⟩
        else walkActions ctx name cur ms2
  | _ => ⟨false, cur, ["Section is empty"]⟩
termination_by sizeOf kv
decreasing_by
  all_goals simp_wf
  · calc sizeOf (prunePlats ctx.plat (removeKeyL ms "signature"))
        ≤ sizeOf (removeKeyL ms "signature") := sizeOf_filter_le _ _
      _ ≤ sizeOf ms := sizeOf_filter_le _ _
      _ < 1 + sizeOf ms := by omega
  · calc sizeOf (prunePlats ctx.plat ms)
        ≤ sizeOf ms := sizeOf_filter_le _ _
      _ < 1 + sizeOf ms := by omega

/-- The member walk of `LoadEngineAddressActions` (gamedata.cpp lines
548-599): a member named like the current platform replaces the remaining
walk by a recursive call into its subtree; `offset` adds; `read` and
`read_offs32` dereference; any other name appends an "Unknown" diagnostic
and the walk continues. -/
def walkActions (ctx : ActCtx) (name : String) (cur : Nat) :
    List (String × KeyValues3) → ActRes
  | [] => ⟨true, cur, []⟩
  | (n, v) :: rest =>
    if n = GetPlatformMemberName ctx.plat then
      LoadEngineAddressActions ctx name cur v
    else
      if n = "offset" then
        walkActions ctx name (wrap64 ((cur : Int) + toInt64 v.getUInt64)) rest
      else if "read".data.isPrefixOf n.data then
        if n = "read" then
          walkActions ctx name
            (ctx.mem.read64 (wrap64 ((cur : Int) + toInt64 v.getUInt64)) % 2 ^ 64) rest
        else if n = "read_offs32" then
          walkActions ctx name
            (wrap64 ((wrap64 ((cur : Int) + toInt64 v.getUInt64) : Int) + 4 +
              wrap32 (ctx.mem.read32 (wrap64 ((cur : Int) + toInt64 v.getUInt64))))) rest
        else
          let r := walkActions ctx name cur rest
          ⟨r.ok, r.cur, ("Unknown \"" ++ n ++ "\" read key") :: r.msgs⟩
      else
        let r := walkActions ctx name cur rest
        ⟨r.ok, r.cur, ("Unknown \"" ++ n ++ "\" key") :: r.msgs⟩
termination_by ms => sizeOf ms
decreasing_by
  all_goals simp_wf
  all_goals omega

end

/-- Embeds `DynLibUtils::CModule` (external collaborator): pattern scan and vtable
lookup, each returning an address whose validity is its non-nullness
(`CMemory::IsValid`), `0` meaning not found. -/
structure Module : Type where
  findPattern : String → Nat
  getVTableByName : String → Nat

/-- Embeds `IGameData` (gamedata.hpp): the host's library resolver. -/
structure GameRoot : Type where
  findLibrary : String → Option Module

/-- Result of one section loader: verdict, updated config, appended
messages. -/
structure SectionRes : Type where
  ok : Bool
  cfg : ConfigState
  msgs : List String

/-- Run a per-entry step over every member of a section, accumulating the
appended messages — the loaders' `do { ...; i++ } while(i < nMemberCount)`
loop, which always visits every entry. -/
def runEntries (step : ConfigState → String × KeyValues3 → ConfigState × List String)
    (cfg : ConfigState) (entries : List (String × KeyValues3)) :
    ConfigState × List String :=
  entries.foldl (fun acc e =>
    let r := step acc.1 e
    (r.1, acc.2 ++ r.2)) (cfg, [])

/-- One entry of `LoadEngineSignatures` (gamedata.cpp lines 230-283): find
the `library` member, resolve the library, find the current platform's
pattern, scan; each failure appends one message and leaves the config
untouched; success stores the scan result under the entry's name. -/
def stepSignatures (root : GameRoot) (plat : Platform) (cfg : ConfigState)
    (e : String × KeyValues3) : ConfigState × List String :=
  match findMemberL e.2.members "library" with
  | none => (cfg, ["Failed to get \"library\" key into \"" ++ e.1 ++ "\""])
  | some lv =>
    let libName := lv.getStringD "<none>"
    match root.findLibrary libName with
    | none => (cfg, ["Not found \"" ++ libName ++ "\" library into \"" ++ e.1 ++ "\""])
    | some lib =>
      match findMemberL e.2.members (GetPlatformMemberName plat) with
      | none =>
        (cfg, ["Failed to get \"" ++ GetPlatformMemberName plat ++ "\" key into \"" ++ e.1 ++ "\""])
      | some pv =>
        let sig := pv.getString
        let r := lib.findPattern sig
        if r = 0 then
          (cfg, ["Failed to find \"" ++ e.1 ++ "\" by\"" ++ sig ++ "\" signature"])
        else (setAddress cfg e.1 r, [])

/-- Embeds `GameData::Config::LoadEngineSignatures` (gamedata.cpp lines 209-287). -/
def LoadEngineSignatures (root : GameRoot) (plat : Platform) (cfg : ConfigState)
    (kv : KeyValues3) : SectionRes :=
  if kv.members.isEmpty then ⟨false, cfg, ["Section is empty"]⟩
  else
    let r := runEntries (stepSignatures root plat) cfg kv.members
    ⟨true, r.1, r.2⟩

/-- One entry of `LoadEngineVTables` (gamedata.cpp lines 306-351): resolve
the library, look the vtable up by the `name` member's string (falling back
to the entry's own key), store on success. -/
def stepVTables (root : GameRoot) (cfg : ConfigState)
    (e : String × KeyValues3) : ConfigState × List String :=
  match findMemberL e.2.members "library" with
  | none => (cfg, ["Failed to get \"library\" key into \"" ++ e.1 ++ "\""])
  | some lv =>
    let libName := lv.getStringD "<none>"
    match root.findLibrary libName with
    | none => (cfg, ["Not found \"" ++ libName ++ "\" library into \"" ++ e.1 ++ "\""])
    | some lib =>
      let vname :=
        match findMemberL e.2.members "name" with
        | some nv => if nv.isString then nv.getString else e.1
        | none => e.1
      let r := lib.getVTableByName vname
      if r = 0 then
        (cfg, ["Failed to find \"" ++ e.1 ++ "\" by \"" ++ vname ++ "\" vtable"])
      else (setAddress cfg e.1 r, [])

/-- Embeds `GameData::Config::LoadEngineVTables` (gamedata.cpp lines 289-355). -/
def LoadEngineVTables (root : GameRoot) (cfg : ConfigState)
    (kv : KeyValues3) : SectionRes :=
  if kv.members.isEmpty then ⟨false, cfg, ["Section is empty"]⟩
  else
    let r := runEntries (stepVTables root) cfg kv.members
    ⟨true, r.1, r.2⟩

/-- One entry of `LoadEngineKeys` (gamedata.cpp lines 374-393): select the
current platform's member and store it verbatim. -/
def stepKeys (plat : Platform) (cfg : ConfigState) (e : String × KeyValues3) :
    ConfigState × List String :=
  match findMemberL e.2.members (GetPlatformMemberName plat) with
  | none =>
    (cfg, ["Failed to get \"" ++ GetPlatformMemberName plat ++ "\" key into \"" ++ e.1 ++ "\""])
  | some pv => (setKeyVal cfg e.1 pv, [])

/-- Embeds `GameData::Config::LoadEngineKeys` (gamedata.cpp lines 357-397). -/
def LoadEngineKeys (plat : Platform) (cfg : ConfigState) (kv : KeyValues3) :
    SectionRes :=
  if kv.members.isEmpty then ⟨false, cfg, ["Keys section is empty"]⟩
  else
    let r := runEntries (stepKeys plat) cfg kv.members
    ⟨true, r.1, r.2⟩

/-- One entry of `LoadEngineOffsets` (gamedata.cpp lines 416-435): select the
platform member; a string value goes through `ReadOffset`, a numeric value is
taken as `GetUInt64()` reinterpreted as signed. -/
def stepOffsets (plat : Platform) (cfg : ConfigState) (e : String × KeyValues3) :
    ConfigState × List String :=
  match findMemberL e.2.members (GetPlatformMemberName plat) with
  | none =>
    (cfg, ["Failed to get \"" ++ GetPlatformMemberName plat ++ "\" key into \"" ++ e.1 ++ "\""])
  | some pv =>
    (setOffset cfg e.1
      (if pv.isString then ReadOffset pv.getString else toInt64 pv.getUInt64), [])

/-- Embeds `GameData::Config::LoadEngineOffsets` (gamedata.cpp lines 399-439). -/
def LoadEngineOffsets (plat : Platform) (cfg : ConfigState) (kv : KeyValues3) :
    SectionRes :=
  if kv.members.isEmpty then ⟨false, cfg, ["Offsets section is empty"]⟩
  else
    let r := runEntries (stepOffsets plat) cfg kv.members
    ⟨true, r.1, r.2⟩

/-- One entry of `LoadEngineAddresses` (gamedata.cpp lines 456-481): run the
action interpreter with the cursor initialised to `0`; on failure flush a
header plus the tab-indented contents of the (never cleared, per-section)
sub-message vector; on success store the final cursor.  The state threads
`(config, accumulated sub-messages)`. -/
def stepAddresses (plat : Platform) (mem : Mem)
    (st : ConfigState × List String) (e : String × KeyValues3) :
    (ConfigState × List String) × List String :=
  let r := LoadEngineAddressActions ⟨plat, mem, st.1.addrs.values⟩ e.1 0 e.2
  let sub2 := st.2 ++ r.msgs
  if r.ok then ((setAddress st.1 e.1 r.cur, sub2), [])
  else
    ((st.1, sub2),
      ("Failed to load \"" ++ e.1 ++ "\" address action:") ::
        sub2.map (fun m => "\t" ++ m))

/-- Embeds `GameData::Config::LoadEngineAddresses` (gamedata.cpp lines 441-485). -/
def LoadEngineAddresses (plat : Platform) (mem : Mem) (cfg : ConfigState)
    (kv : KeyValues3) : SectionRes :=
  if kv.members.isEmpty then ⟨false, cfg, ["Addresses section is empty"]⟩
  else
    let r := kv.members.foldl (fun acc e =>
      let s := stepAddresses plat mem acc.1 e
      (s.1, acc.2 ++ s.2)) ((cfg, []), [])
    ⟨true, r.1.1, r.2⟩

/-- The section table of `LoadEngine` (gamedata.cpp lines 161-183), in its
fixed declared order. -/
def engineSections (root : GameRoot) (plat : Platform) (mem : Mem) :
    List (String × (ConfigState → KeyValues3 → SectionRes)) :=
  [("Signatures", LoadEngineSignatures root plat),
   ("VTables", LoadEngineVTables root),
   ("Keys", LoadEngineKeys plat),
   ("Offsets", LoadEngineOffsets plat),
   ("Addresses", LoadEngineAddresses plat mem)]

/-- One iteration of the `LoadEngine` section loop (gamedata.cpp lines
187-204): skip an absent section silently; run a present one, collecting its
messages into the shared sub-message vector; on failure flush a header plus
the tab-indented whole of that vector (which is never cleared) into the
output messages.  State is `(config, output messages, sub-messages)`. -/
def stepSection (ev : KeyValues3)
    (acc : ConfigState × List String × List String)
    (s : String × (ConfigState → KeyValues3 → SectionRes)) :
    ConfigState × List String × List String :=
  match findMemberL ev.members s.1 with
  | none => acc
  | some kv =>
    let r := s.2 acc.1 kv
    let sub2 := acc.2.2 ++ r.msgs
    if r.ok then (r.cfg, acc.2.1, sub2)
    else
      (r.cfg,
        acc.2.1 ++ ("Failed to load \"" ++ s.1 ++ "\" section:") ::
          sub2.map (fun m => "\t" ++ m),
        sub2)

/-- Embeds `GameData::Config::LoadEngine` (gamedata.cpp lines 155-207): run the five
section loaders in fixed order over the engine subsection; always report
success. -/
def LoadEngine (root : GameRoot) (plat : Platform) (mem : Mem)
    (cfg : ConfigState) (ev : KeyValues3) : Bool × ConfigState × List String :=
  let fin := (engineSections root plat mem).foldl (stepSection ev) (cfg, [], [])
  (true, fin.1, fin.2.1)

/-- Embeds `GameData::Config::Load` (gamedata.cpp lines 130-146): select the engine
subsection by its canonical key; if absent, fail with one message; otherwise
delegate to `LoadEngine`. -/
def Load (root : GameRoot) (plat : Platform) (mem : Mem) (game : Game)
    (cfg : ConfigState) (doc : KeyValues3) : Bool × ConfigState × List String :=
  match findMemberL doc.members (GetSourceEngineMemberName game) with
  | none =>
    (false, cfg,
      ["Failed to find \"" ++ GetSourceEngineMemberName game ++ "\" section"])
  | some ev => LoadEngine root plat mem cfg ev

/-- An empty config: no symbols, no values, no listeners. -/
def cfgEmpty : ConfigState := ⟨[], ⟨[], []⟩, ⟨[], []⟩, ⟨[], []⟩⟩

/-- A host that resolves no library. -/
def rootNone : GameRoot := ⟨fun _ => none⟩

/-- All-zero memory. -/
def memZero : Mem := ⟨fun _ => 0, fun _ => 0⟩

/-- A populated config: a symbol in the table, one value and one listener in
each store. -/
def cfgC5 : ConfigState :=
  ⟨["mykey"], ⟨[("a", 1)], [4]⟩, ⟨[("mykey", .str "v")], [5]⟩, ⟨[("o", 2)], [6]⟩⟩

/-- A document whose `Signatures` section has an entry with no `library`
member (a per-entry failure inside a section that itself succeeds) and whose
`Offsets` section is present but empty (a section failure). -/
def docC3cex : KeyValues3 :=
  .obj [("csgo", .obj
    [("Signatures", .obj [("Foo", .obj [])]),
     ("Offsets", .obj [])])]

/-! ### Helper lemmas -/

lemma wrap64_of_range {z : Int} (h0 : 0 ≤ z) (h1 : z < 2 ^ 64) :
    wrap64 z = z.toNat := by
  rw [wrap64, Int.emod_eq_of_lt h0 (by norm_num at h1 ⊢; exact h1)]

lemma wrap64_cast_of_range {z : Int} (h0 : 0 ≤ z) (h1 : z < 2 ^ 64) :
    ((wrap64 z : Nat) : Int) = z := by
  rw [wrap64_of_range h0 h1, Int.toNat_of_nonneg h0]

lemma findMemberL_mid {key k : String} (h : k ≠ key)
    (ms1 ms2 : List (String × KeyValues3)) (L L' : KeyValues3) :
    findMemberL (ms1 ++ (k, L) :: ms2) key
      = findMemberL (ms1 ++ (k, L') :: ms2) key := by
  induction ms1 with
  | nil => simp [findMemberL, h]
  | cons a ms1 ih =>
    obtain ⟨n, v⟩ := a
    by_cases hn : n = key <;> simp [findMemberL, hn, ih]

lemma removeKeyL_append (xs ys : List (String × KeyValues3)) (key : String) :
    removeKeyL (xs ++ ys) key = removeKeyL xs key ++ removeKeyL ys key := by
  simp [removeKeyL, List.filter_append]

lemma prunePlats_append (plat : Platform) (xs ys : List (String × KeyValues3)) :
    prunePlats plat (xs ++ ys) = prunePlats plat xs ++ prunePlats plat ys := by
  simp [prunePlats, List.filter_append]

lemma isEmpty_append_cons (ms1 ms2 : List (String × KeyValues3))
    (a : String × KeyValues3) : (ms1 ++ a :: ms2).isEmpty = false := by
  cases ms1 <;> rfl

/-- Behavioural congruence for the action interpreter on object nodes: the
result depends only on the emptiness test, the `"signature"` lookup and the
two pruned working sets. -/
lemma loadActions_obj_congr (ctx : ActCtx) (nm : String) (cur : Nat)
    (msA msB : List (String × KeyValues3))
    (hne : msA.isEmpty = msB.isEmpty)
    (hsig : findMemberL msA "signature" = findMemberL msB "signature")
    (hp1 : prunePlats ctx.plat (removeKeyL msA "signature")
      = prunePlats ctx.plat (removeKeyL msB "signature"))
    (hp2 : prunePlats ctx.plat msA = prunePlats ctx.plat msB) :
    LoadEngineAddressActions ctx nm cur (.obj msA)
      = LoadEngineAddressActions ctx nm cur (.obj msB) := by
  rw [LoadEngineAddressActions, LoadEngineAddressActions]
  rw [hne, hsig, hp1, hp2]

lemma platformName_ne_offset (p : Platform) :
    GetPlatformMemberName p ≠ "offset" := by
  cases p <;> decide

lemma platformName_ne_read_offs32 (p : Platform) :
    GetPlatformMemberName p ≠ "read_offs32" := by
  cases p <;> decide

/-- Sibling actions after a current-platform member are never reached: the
walk result does not depend on them. -/
lemma walk_mid_indep (ctx : ActCtx) (nm : String) :
    ∀ (ms1 : List (String × KeyValues3)) (cur : Nat) (v : KeyValues3)
      (ms2 ms2' : List (String × KeyValues3)),
      walkActions ctx nm cur (ms1 ++ (GetPlatformMemberName ctx.plat, v) :: ms2)
        = walkActions ctx nm cur (ms1 ++ (GetPlatformMemberName ctx.plat, v) :: ms2') := by
  intro ms1
  induction ms1 with
  | nil =>
    intro cur v ms2 ms2'
    simp [walkActions]
  | cons hd tl ih =>
    intro cur v ms2 ms2'
    obtain ⟨n, w⟩ := hd
    simp only [List.cons_append, walkActions]
    by_cases h1 : n = GetPlatformMemberName ctx.plat
    · rw [if_pos h1, if_pos h1]
    · rw [if_neg h1, if_neg h1]
      by_cases h2 : n = "offset"
      · rw [if_pos h2, if_pos h2]
        exact ih _ _ _ _
      · rw [if_neg h2, if_neg h2]
        by_cases h3 : ("read".data.isPrefixOf n.data) = true
        · rw [if_pos h3, if_pos h3]
          by_cases h4 : n = "read"
          · rw [if_pos h4, if_pos h4]
            exact ih _ _ _ _
          · rw [if_neg h4, if_neg h4]
            by_cases h5 : n = "read_offs32"
            · rw [if_pos h5, if_pos h5]
              exact ih _ _ _ _
            · rw [if_neg h5, if_neg h5]
              rw [ih _ _ ms2 ms2']
        · rw [if_neg h3, if_neg h3]
          rw [ih _ _ ms2 ms2']

/-! ### Claim C1 -/

/-- C1: In `LoadEngineAddressActions`, platform-key subtrees are selected
exclusively.  (a) A member named like the current platform replaces the
entire remaining walk by a recursive call into its subtree: the walk result
is independent of everything after that member.  (b) Every member named by a
platform key of a different platform is removed before the walk, so for an
actions object containing both a `win64` and a `linuxsteamrt64` subtree,
resolution under Windows executes nothing from the Linux subtree: the result
is independent of that subtree's entire content. -/
theorem claim_C1_platform_exclusive (ctx : ActCtx) (nm : String) (cur : Nat) :
    (∀ (ms1 : List (String × KeyValues3)) (v : KeyValues3)
       (ms2 ms2' : List (String × KeyValues3)),
       walkActions ctx nm cur (ms1 ++ (GetPlatformMemberName ctx.plat, v) :: ms2)
         = walkActions ctx nm cur (ms1 ++ (GetPlatformMemberName ctx.plat, v) :: ms2')) ∧
    (∀ (ms1 ms2 : List (String × KeyValues3)) (L L' W : KeyValues3),
       ctx.plat = .windows64 →
       ("win64", W) ∈ ms1 ++ ms2 →
       LoadEngineAddressActions ctx nm cur (.obj (ms1 ++ ("linuxsteamrt64", L) :: ms2))
         = LoadEngineAddressActions ctx nm cur (.obj (ms1 ++ ("linuxsteamrt64", L') :: ms2))) := by
  obtain ⟨plat, mem, addrs⟩ := ctx
  constructor
  · intro ms1 v ms2 ms2'
    exact walk_mid_indep ⟨plat, mem, addrs⟩ nm ms1 cur v ms2 ms2'
  · intro ms1 ms2 L L' W hplat _
    simp only at hplat
    subst hplat
    have hmid : ∀ (X : KeyValues3) (xs ys : List (String × KeyValues3)),
        prunePlats Platform.windows64 (xs ++ ("linuxsteamrt64", X) :: ys)
          = prunePlats Platform.windows64 xs ++ prunePlats Platform.windows64 ys := by
      intro X xs ys
      rw [show xs ++ ("linuxsteamrt64", X) :: ys
            = xs ++ [("linuxsteamrt64", X)] ++ ys by simp]
      rw [prunePlats_append, prunePlats_append]
      have : prunePlats Platform.windows64 [("linuxsteamrt64", X)] = [] := by
        simp only [prunePlats, List.filter_cons, List.filter_nil]
        rw [if_neg]
        simp only [Bool.not_eq_true, Bool.not_eq_false]
        decide
      rw [this]
      simp
    apply loadActions_obj_congr
    · rw [isEmpty_append_cons, isEmpty_append_cons]
    · exact findMemberL_mid (by decide) ms1 ms2 L L'
    · have hrm : ∀ (X : KeyValues3),
          removeKeyL (ms1 ++ ("linuxsteamrt64", X) :: ms2) "signature"
            = removeKeyL ms1 "signature" ++
                ("linuxsteamrt64", X) :: removeKeyL ms2 "signature" := by
        intro X
        rw [show ms1 ++ ("linuxsteamrt64", X) :: ms2
              = ms1 ++ [("linuxsteamrt64", X)] ++ ms2 by simp]
        rw [removeKeyL_append, removeKeyL_append]
        simp [removeKeyL, List.filter]
      rw [hrm L, hrm L', hmid L, hmid L']
    · rw [hmid L, hmid L']

/-! ### Claim C2 -/

/-- C2: at cursor `C`, the `read_offs32` action with (signed) value `V` sets
the cursor to `C + V + 4 + D` where `D` is the signed 32-bit integer stored
at address `C + V`, and the `offset` action sets the cursor to exactly
`C + V` — whenever those quantities are representable in the pointer width
(the machine arithmetic wraps modulo `2 ^ 64` otherwise). -/
theorem claim_C2_read_offs32_offset (ctx : ActCtx) (nm : String) (C : Nat)
    (n : Nat) (rest : List (String × KeyValues3))
    (hA0 : 0 ≤ (C : Int) + toInt64 n) (hA1 : (C : Int) + toInt64 n < 2 ^ 64)
    (hF0 : 0 ≤ (C : Int) + toInt64 n + 4 +
      wrap32 (ctx.mem.read32 (((C : Int) + toInt64 n).toNat)))
    (hF1 : (C : Int) + toInt64 n + 4 +
      wrap32 (ctx.mem.read32 (((C : Int) + toInt64 n).toNat)) < 2 ^ 64) :
    walkActions ctx nm C (("read_offs32", .num n) :: rest)
      = walkActions ctx nm
          (((C : Int) + toInt64 n + 4 +
            wrap32 (ctx.mem.read32 (((C : Int) + toInt64 n).toNat))).toNat) rest ∧
    walkActions ctx nm C (("offset", .num n) :: rest)
      = walkActions ctx nm (((C : Int) + toInt64 n).toNat) rest := by
  have hto : toInt64 ((KeyValues3.num n).getUInt64) = toInt64 n := by
    simp [KeyValues3.getUInt64, toInt64, Nat.mod_mod_of_dvd _ (dvd_refl (2 ^ 64))]
  have haddr : wrap64 ((C : Int) + toInt64 n) = ((C : Int) + toInt64 n).toNat :=
    wrap64_of_range hA0 hA1
  constructor
  · rw [walkActions]
    rw [if_neg (fun h => platformName_ne_read_offs32 ctx.plat h.symm)]
    rw [if_neg (by decide : ¬ ("read_offs32" : String) = "offset")]
    rw [if_pos (by decide : ("read".data.isPrefixOf ("read_offs32" : String).data) = true)]
    rw [if_neg (by decide : ¬ ("read_offs32" : String) = "read")]
    rw [if_pos (rfl : ("read_offs32" : String) = "read_offs32")]
    rw [hto]
    rw [wrap64_cast_of_range hA0 hA1]
    rw [haddr]
    rw [wrap64_of_range hF0 hF1]
  · rw [walkActions]
    rw [if_neg (fun h => platformName_ne_offset ctx.plat h.symm)]
    rw [if_pos (rfl : ("offset" : String) = "offset")]
    rw [hto, haddr]

/-- Witness for C2 at a concrete input: platform `win64`, memory holding the
32-bit value `5` everywhere, cursor `100`, action value `8`. -/
theorem claim_C2_witness :
    (0 ≤ (100 : Int) + toInt64 8 ∧ (100 : Int) + toInt64 8 < 2 ^ 64 ∧
      0 ≤ (100 : Int) + toInt64 8 + 4 + wrap32 5 ∧
      (100 : Int) + toInt64 8 + 4 + wrap32 5 < 2 ^ 64) ∧
    walkActions ⟨.windows64, ⟨fun _ => 0, fun _ => 5⟩, []⟩ "x" 100
        (("offset", .num 8) :: [])
      = walkActions ⟨.windows64, ⟨fun _ => 0, fun _ => 5⟩, []⟩ "x"
          (((100 : Int) + toInt64 8).toNat) [] := by
  refine ⟨⟨by decide, by decide, by decide, by decide⟩, ?_⟩
  exact (claim_C2_read_offs32_offset ⟨.windows64, ⟨fun _ => 0, fun _ => 5⟩, []⟩
    "x" 100 8 [] (by decide) (by decide) (by decide) (by decide)).2

/-! ### Claim C4 -/

/-- Witness for C1 at a concrete input: the document
`{win64: 0, linuxsteamrt64: L}` resolved under Windows gives the same result
for two different Linux subtrees. -/
theorem claim_C1_witness :
    ((⟨Platform.windows64, ⟨fun _ => 0, fun _ => 0⟩, []⟩ : ActCtx).plat
        = Platform.windows64 ∧
      ("win64", KeyValues3.num 0) ∈
        ([("win64", KeyValues3.num 0)] : List (String × KeyValues3)) ++ []) ∧
    LoadEngineAddressActions ⟨.windows64, ⟨fun _ => 0, fun _ => 0⟩, []⟩ "x" 0
        (.obj ([("win64", .num 0)] ++ ("linuxsteamrt64", .num 1) :: []))
      = LoadEngineAddressActions ⟨.windows64, ⟨fun _ => 0, fun _ => 0⟩, []⟩ "x" 0
        (.obj ([("win64", .num 0)] ++ ("linuxsteamrt64", .num 2) :: [])) := by
  refine ⟨⟨rfl, by simp⟩, ?_⟩
  exact (claim_C1_platform_exclusive ⟨.windows64, ⟨fun _ => 0, fun _ => 0⟩, []⟩
    "x" 0).2 [("win64", .num 0)] [] (.num 1) (.num 2) (.num 0) rfl (by simp)

/-- A character carrying a digit value is not whitespace, a sign, or an `x`:
its code point lies in `[48,57] ∪ [97,102] ∪ [65,70]`. -/
lemma digit_class {c : Char} {d : Nat} (h : hexDigitVal? c = some d) :
    isSpaceC c = false ∧ c ≠ '-' ∧ c ≠ '+' ∧ c ≠ 'x' ∧ c ≠ 'X' := by
  have hval : (48 ≤ c.toNat ∧ c.toNat ≤ 57) ∨ (97 ≤ c.toNat ∧ c.toNat ≤ 102) ∨
      (65 ≤ c.toNat ∧ c.toNat ≤ 70) := by
    unfold hexDigitVal? at h
    split at h
    · rename_i h1
      obtain ⟨ha, hb⟩ := h1
      rw [Char.le_def] at ha hb
      exact Or.inl ⟨ha, hb⟩
    · split at h
      · rename_i h1
        obtain ⟨ha, hb⟩ := h1
        rw [Char.le_def] at ha hb
        exact Or.inr (Or.inl ⟨ha, hb⟩)
      · split at h
        · rename_i h1
          obtain ⟨ha, hb⟩ := h1
          rw [Char.le_def] at ha hb
          exact Or.inr (Or.inr ⟨ha, hb⟩)
        · exact absurd h (by simp)
  have hneN : ∀ (a : Char) (k : Nat), a.toNat = k → c.toNat ≠ k → c ≠ a := by
    intro a k hk hnk hca
    exact hnk (by rw [hca, hk])
  refine ⟨?_, ?_, ?_, ?_, ?_⟩
  · simp only [isSpaceC, Bool.or_eq_false_iff]
    refine ⟨⟨⟨⟨⟨?_, ?_⟩, ?_⟩, ?_⟩, ?_⟩, ?_⟩
    · rw [beq_eq_false_iff_ne]
      exact hneN ' ' 32 rfl (by omega)
    · rw [beq_eq_false_iff_ne]
      exact hneN '\t' 9 rfl (by omega)
    · rw [beq_eq_false_iff_ne]
      exact hneN '\n' 10 rfl (by omega)
    · rw [beq_eq_false_iff_ne]
      exact hneN (Char.ofNat 11) 11 rfl (by omega)
    · rw [beq_eq_false_iff_ne]
      exact hneN (Char.ofNat 12) 12 rfl (by omega)
    · rw [beq_eq_false_iff_ne]
      exact hneN '\r' 13 rfl (by omega)
  · exact hneN '-' 45 rfl (by omega)
  · exact hneN '+' 43 rfl (by omega)
  · exact hneN 'x' 120 rfl (by omega)
  · exact hneN 'X' 88 rfl (by omega)

/-- Embeds `parseDigits` on a run of digits all valid in the base accumulates their
positional value. -/
lemma parseDigits_all (b : Nat) (cs : List Char) (acc : Nat)
    (h : ∀ c ∈ cs, ∃ d, hexDigitVal? c = some d ∧ d < b) :
    parseDigits b cs acc
      = cs.foldl (fun a c => a * b + (hexDigitVal? c).getD 0) acc := by
  induction cs generalizing acc with
  | nil => rfl
  | cons c cs ih =>
    obtain ⟨d, hd, hdb⟩ := h c (List.mem_cons_self c cs)
    rw [parseDigits, hd]
    show (if d < b then parseDigits b cs (acc * b + d) else acc) = _
    rw [if_pos hdb, List.foldl_cons, hd, Option.getD_some]
    exact ih _ (fun x hx => h x (List.mem_cons_of_mem c hx))

lemma dropWhile_no_space {c : Char} (cs : List Char) (h : isSpaceC c = false) :
    (c :: cs).dropWhile isSpaceC = c :: cs := by
  simp [List.dropWhile_cons, h]

lemma signSplit_none {c : Char} (cs : List Char) (h1 : c ≠ '-') (h2 : c ≠ '+') :
    signSplit (c :: cs) = (1, c :: cs) := by
  simp [signSplit, h1, h2]

lemma pickBase_dec {c : Char} (cs : List Char) (h : c ≠ '0') :
    pickBase (c :: cs) = (10, c :: cs) := by
  simp [pickBase, h]

lemma pickBase_hex {c2 : Char} (cs : List Char) (hx : c2 = 'x' ∨ c2 = 'X')
    (hh : hexHead cs = true) : pickBase ('0' :: c2 :: cs) = (16, cs) := by
  simp [pickBase, hx, hh]

lemma pickBase_oct (cs : List Char)
    (h : ∀ c ∈ cs, ∃ d, hexDigitVal? c = some d ∧ d < 8) :
    pickBase ('0' :: cs) = (8, cs) := by
  cases cs with
  | nil => rfl
  | cons c2 rest2 =>
    obtain ⟨d, hd, _⟩ := h c2 (List.mem_cons_self c2 rest2)
    obtain ⟨_, _, _, hx, hX⟩ := digit_class hd
    simp [pickBase, hx, hX]

/-- The common spine of the three parse characterisations: position the
machinery on an unsigned digit run. -/
lemma strtol_pos_digits (s : String) (c0 : Char) (tail ds : List Char)
    (b : Nat) (hs : s.data = c0 :: tail)
    (hsp : isSpaceC c0 = false) (hm : c0 ≠ '-') (hp : c0 ≠ '+')
    (hbase : pickBase (c0 :: tail) = (b, ds))
    (hd : ∀ c ∈ ds, ∃ d, hexDigitVal? c = some d ∧ d < b)
    (hlt : digitsVal b ds < 2 ^ 63) :
    ReadOffset s = (digitsVal b ds : Nat) := by
  rw [ReadOffset, strtolBase0, hs]
  rw [dropWhile_no_space tail hsp]
  rw [signSplit_none tail hm hp]
  simp only
  rw [hbase]
  simp only
  rw [parseDigits_all b ds 0 hd]
  rw [if_pos (by norm_num)]
  have : min (digitsVal b ds) (2 ^ 63 - 1) = digitsVal b ds := by
    rw [digitsVal] at hlt
    rw [digitsVal]
    omega
  rw [digitsVal] at this ⊢
  rw [this]

/-- C4 counterexample: the code parses a leading-zero string as octal, not
decimal.  `ReadOffset "010"` is `8`; the claim's stated parse gives `10`. -/
theorem claim_C4_counterexample :
    ReadOffset "010" = 8 ∧ readOffsetClaimSpec "010" = 10 ∧
      ReadOffset "010" ≠ readOffsetClaimSpec "010" := by
  refine ⟨by decide, by decide, by decide⟩

/-- C4 as amended: a string Offsets value is parsed by `strtol(s, NULL, 0)`,
whose base detection maps a `0x` prefix to hexadecimal, a remaining leading
`0` to octal, and anything else to decimal; a numeric value is taken as the
unsigned 64-bit value reinterpreted as a signed offset.  In particular
`"0x10"` stores `16` and the number `16` stores `16`. -/
theorem claim_C4_offset_parsing (plat : Platform) (cfg : ConfigState)
    (nm : String) :
    (∀ (s : String) (c0 : Char) (tail : List Char), s.data = c0 :: tail →
      c0 ≠ '0' → (∀ c ∈ c0 :: tail, ∃ d, hexDigitVal? c = some d ∧ d < 10) →
      digitsVal 10 (c0 :: tail) < 2 ^ 63 →
      ReadOffset s = (digitsVal 10 (c0 :: tail) : Nat)) ∧
    (∀ (s : String) (c2 : Char) (tail : List Char),
      s.data = '0' :: c2 :: tail → (c2 = 'x' ∨ c2 = 'X') →
      (∀ c ∈ tail, ∃ d, hexDigitVal? c = some d ∧ d < 16) → tail ≠ [] →
      digitsVal 16 tail < 2 ^ 63 →
      ReadOffset s = (digitsVal 16 tail : Nat)) ∧
    (∀ (s : String) (tail : List Char), s.data = '0' :: tail →
      (∀ c ∈ tail, ∃ d, hexDigitVal? c = some d ∧ d < 8) →
      digitsVal 8 tail < 2 ^ 63 →
      ReadOffset s = (digitsVal 8 tail : Nat)) ∧
    (∀ (s : String),
      stepOffsets plat cfg (nm, .obj [(GetPlatformMemberName plat, .str s)])
        = (setOffset cfg nm (ReadOffset s), [])) ∧
    (∀ (k : Nat),
      stepOffsets plat cfg (nm, .obj [(GetPlatformMemberName plat, .num k)])
        = (setOffset cfg nm (toInt64 k), [])) ∧
    ReadOffset "0x10" = 16 ∧ toInt64 16 = 16 := by
  refine ⟨?_, ?_, ?_, ?_, ?_, by decide, by decide⟩
  · intro s c0 tail hs h0 hd hlt
    obtain ⟨d, hdv, _⟩ := hd c0 (List.mem_cons_self c0 tail)
    obtain ⟨hsp, hm, hp, _, _⟩ := digit_class hdv
    exact strtol_pos_digits s c0 tail (c0 :: tail) 10 hs hsp hm hp
      (pickBase_dec tail h0) hd hlt
  · intro s c2 tail hs hx hd hne hlt
    have hh : hexHead tail = true := by
      cases tail with
      | nil => exact absurd rfl hne
      | cons t ts =>
        obtain ⟨d, hdv, _⟩ := hd t (List.mem_cons_self t ts)
        simp [hexHead, hdv]
    exact strtol_pos_digits s '0' (c2 :: tail) tail 16 hs (by decide)
      (by decide) (by decide) (pickBase_hex tail hx hh) hd hlt
  · intro s tail hs hd hlt
    exact strtol_pos_digits s '0' tail tail 8 hs (by decide) (by decide)
      (by decide) (pickBase_oct tail hd) hd hlt
  · intro s
    simp [stepOffsets, findMemberL, KeyValues3.members, KeyValues3.isString,
      KeyValues3.getString]
  · intro k
    simp [stepOffsets, findMemberL, KeyValues3.members, KeyValues3.isString,
      KeyValues3.getUInt64, toInt64, Nat.mod_mod_of_dvd _ (dvd_refl (2 ^ 64))]

/-- Witness for C4 at concrete inputs: `"16"` parses as decimal sixteen,
`"0x1f"` as hexadecimal, `"017"` as octal. -/
theorem claim_C4_witness :
    ReadOffset "16" = (digitsVal 10 ("16".data) : Nat) ∧
    ReadOffset "0x1f" = (digitsVal 16 ("1f".data) : Nat) ∧
    ReadOffset "017" = (digitsVal 8 ("17".data) : Nat) := by
  refine ⟨?_, ?_, ?_⟩
  · exact (claim_C4_offset_parsing .windows64 ⟨[], ⟨[], []⟩, ⟨[], []⟩, ⟨[], []⟩⟩
      "x").1 "16" '1' ['6'] rfl (by decide) (by decide) (by decide)
  · exact (claim_C4_offset_parsing .windows64 ⟨[], ⟨[], []⟩, ⟨[], []⟩, ⟨[], []⟩⟩
      "x").2.1 "0x1f" 'x' ['1', 'f'] rfl (Or.inl rfl) (by decide) (by decide)
      (by decide)
  · exact (claim_C4_offset_parsing .windows64 ⟨[], ⟨[], []⟩, ⟨[], []⟩, ⟨[], []⟩⟩
      "x").2.2.1 "017" ['1', '7'] rfl (by decide) (by decide)

/-! ### Claim C5 -/

/-- C5: the `ClearValues` of the first variant (gamedata.cpp lines 148-153)
empties all three stores, keeping the symbol table and every listener; the
second variant (lines 748-752) does not clear the Keys store, so after it
`GetKey` still returns the stored value instead of the missing sentinel. -/
theorem claim_C5_clearvalues :
    (ClearValues cfgC5).addrs.values = [] ∧
    (ClearValues cfgC5).keys.values = [] ∧
    (ClearValues cfgC5).offs.values = [] ∧
    (ClearValues cfgC5).symtab = cfgC5.symtab ∧
    (ClearValues cfgC5).addrs.listeners = cfgC5.addrs.listeners ∧
    (ClearValues cfgC5).keys.listeners = cfgC5.keys.listeners ∧
    (ClearValues cfgC5).offs.listeners = cfgC5.offs.listeners ∧
    (ClearValuesRev2 cfgC5).addrs.values = [] ∧
    (ClearValuesRev2 cfgC5).offs.values = [] ∧
    (ClearValuesRev2 cfgC5).keys.values = [("mykey", KeyValues3.str "v")] ∧
    lookupL (ClearValuesRev2 cfgC5).keys.values "mykey" = some (.str "v") ∧
    (ClearValuesRev2 cfgC5).symtab = cfgC5.symtab ∧
    (ClearValuesRev2 cfgC5).keys.listeners = cfgC5.keys.listeners :=
  ⟨rfl, rfl, rfl, rfl, rfl, rfl, rfl, rfl, rfl, rfl, rfl, rfl, rfl⟩

/-! ### Claim C8 -/

lemma idxOfL_eq_some_get {tab : List String} {s : String} {i : Nat}
    (h : idxOfL tab s = some i) : tab.get? i = some s := by
  induction tab generalizing i with
  | nil => exact absurd h (by simp [idxOfL])
  | cons t rest ih =>
    rw [idxOfL] at h
    by_cases ht : t = s
    · rw [if_pos ht] at h
      have hi : (0 : Nat) = i := Option.some_inj.mp h
      rw [← hi]
      simp [ht]
    · rw [if_neg ht] at h
      cases hr : idxOfL rest s with
      | none => rw [hr] at h; exact absurd h (by simp)
      | some j =>
        rw [hr] at h
        simp only [Option.map_some', Option.some_inj] at h
        rw [← h]
        exact ih hr

lemma idxOfL_none_iff {tab : List String} {s : String} :
    idxOfL tab s = none ↔ s ∉ tab := by
  induction tab with
  | nil => simp [idxOfL]
  | cons t rest ih =>
    rw [idxOfL]
    by_cases ht : t = s
    · simp [ht]
    · constructor
      · intro hn hc
        rw [if_neg ht] at hn
        have hrest : idxOfL rest s = none := by
          cases hx : idxOfL rest s with
          | none => rfl
          | some j => rw [hx] at hn; exact absurd hn (by simp)
        rcases List.mem_cons.mp hc with hc | hc
        · exact ht hc.symm
        · exact (ih.mp hrest) hc
      · intro hn
        rw [if_neg ht]
        have hrest : idxOfL rest s = none :=
          ih.mpr (fun hc => hn (List.mem_cons_of_mem t hc))
        rw [hrest]
        rfl

lemma idxOfL_append_self {tab : List String} {s : String} (h : s ∉ tab) :
    idxOfL (tab ++ [s]) s = some tab.length := by
  induction tab with
  | nil => simp [idxOfL]
  | cons t rest ih =>
    have ht : t ≠ s := fun he => h (he ▸ List.mem_cons_self t rest)
    rw [List.cons_append, idxOfL, if_neg ht,
      ih (fun hc => h (List.mem_cons_of_mem t hc))]
    rfl

lemma getq_append {α : Type} {l1 : List α} (l2 : List α) {i : Nat} {a : α}
    (h : l1.get? i = some a) : (l1 ++ l2).get? i = some a := by
  induction l1 generalizing i with
  | nil => cases i <;> exact absurd h (by simp)
  | cons x xs ih =>
    cases i with
    | zero => exact h
    | succ j => exact ih h

lemma getq_concat_self {α : Type} (l : List α) (a : α) :
    (l ++ [a]).get? l.length = some a := by
  induction l with
  | nil => rfl
  | cons x xs ih => exact ih

/-- The handle returned by `AddString` indexes the canonical spelling of the
interned name. -/
lemma addString_get (tab : List String) (s : String) :
    ((AddString tab s).2).get? (AddString tab s).1 = some (asciiLower s) := by
  rw [AddString]
  cases h : idxOfL tab (asciiLower s) with
  | some i => exact idxOfL_eq_some_get h
  | none => exact getq_concat_self tab (asciiLower s)

/-- Embeds `AddString` never disturbs existing slots. -/
lemma addString_preserve {tab : List String} {i : Nat} {x : String}
    (s : String) (h : tab.get? i = some x) :
    ((AddString tab s).2).get? i = some x := by
  rw [AddString]
  cases idxOfL tab (asciiLower s) with
  | some j => exact h
  | none => exact getq_append _ h

/-- C8: `GetSymbol` always succeeds — it returns the existing handle when the
canonical spelling is already interned and appends a new slot otherwise — and
two names receive the same handle exactly when they agree case-insensitively.
The two calls run in sequence on the same table. -/
theorem claim_C8_symbol_interning (tab : List String) (a b : String) :
    ((GetSymbol (GetSymbol tab a).2 b).1 = (GetSymbol tab a).1 ↔
      asciiLower a = asciiLower b) ∧
    (GetSymbol tab a).2
      = (if asciiLower a ∈ tab then tab else tab ++ [asciiLower a]) := by
  constructor
  · constructor
    · intro heq
      have h1 : ((GetSymbol tab a).2).get? (GetSymbol tab a).1
          = some (asciiLower a) := addString_get tab a
      have h2 : ((GetSymbol (GetSymbol tab a).2 b).2).get?
          (GetSymbol (GetSymbol tab a).2 b).1 = some (asciiLower b) :=
        addString_get (GetSymbol tab a).2 b
      have h3 : ((GetSymbol (GetSymbol tab a).2 b).2).get? (GetSymbol tab a).1
          = some (asciiLower a) := addString_preserve b h1
      rw [heq] at h2
      rw [h3] at h2
      exact Option.some_inj.mp h2
    · intro hab
      have hfst : idxOfL (GetSymbol tab a).2 (asciiLower a)
          = some (GetSymbol tab a).1 := by
        rw [GetSymbol, AddString]
        cases h : idxOfL tab (asciiLower a) with
        | some i => exact h
        | none => exact idxOfL_append_self (idxOfL_none_iff.mp h)
      rw [GetSymbol, AddString, ← hab, hfst]
  · rw [GetSymbol, AddString]
    by_cases h : asciiLower a ∈ tab
    · cases hi : idxOfL tab (asciiLower a) with
      | some i => rw [if_pos h]
      | none => exact absurd (idxOfL_none_iff.mp hi) (by simpa using h)
    · cases hi : idxOfL tab (asciiLower a) with
      | some i =>
        exact absurd (List.get?_mem (idxOfL_eq_some_get hi)) h
      | none => rw [if_neg h]

/-! ### Claim C9 -/

lemma filter_map_events {V : Type} (xs : List Nat) (k : String) (v : V)
    (l : Nat) :
    ((xs.map (fun x => (x, k, v))).filter (fun ev => ev.1 == l))
      = (xs.filter (fun x => x == l)).map (fun x => (x, k, v)) := by
  induction xs with
  | nil => rfl
  | cons x xs ih =>
    simp only [List.map_cons, List.filter_cons]
    by_cases hx : (x == l) = true
    · simp [hx, ih]
    · simp only [Bool.not_eq_true] at hx
      simp [hx, ih]

lemma filter_beq_nil {l : Nat} {ys : List Nat} (h : l ∉ ys) :
    ys.filter (fun x => x == l) = [] := by
  induction ys with
  | nil => rfl
  | cons y ys ih =>
    have hy : (y == l) = false := by
      simp only [beq_eq_false_iff_ne]
      exact fun he => h (he ▸ List.mem_cons_self y ys)
    rw [List.filter_cons, hy]
    simp only [Bool.false_eq_true, if_false]
    exact ih (fun hc => h (List.mem_cons_of_mem y hc))

lemma lookupL_setL {V : Type} (vals : List (String × V)) (k : String) (v : V) :
    lookupL (setL vals k v) k = some v := by
  induction vals with
  | nil => simp [setL, lookupL]
  | cons p rest ih =>
    obtain ⟨k1, v1⟩ := p
    by_cases hk : k1 = k
    · simp [setL, hk, lookupL]
    · simp [setL, hk, lookupL, ih]

lemma findIdx_concat_self {l : Nat} {ys : List Nat} (h : l ∉ ys) :
    (ys ++ [l]).findIdx (fun x => x == l) = ys.length := by
  induction ys with
  | nil => simp [List.findIdx_cons]
  | cons y ys ih =>
    have hy : (y == l) = false := by
      simp only [beq_eq_false_iff_ne]
      exact fun he => h (he ▸ List.mem_cons_self y ys)
    rw [List.cons_append, List.findIdx_cons, hy]
    simp only [cond_false]
    rw [ih (fun hc => h (List.mem_cons_of_mem y hc))]
    rfl

lemma set_concat_self {α : Type} (ys : List α) (a x : α) :
    (ys ++ [a]).set ys.length x = ys ++ [x] := by
  induction ys with
  | nil => rfl
  | cons y ys ih => simp [List.set, ih]

lemma fastRemove_concat {l : Nat} (ys : List Nat) :
    Storage.fastRemove (ys ++ [l]) ys.length = ys := by
  rw [Storage.fastRemove]
  rw [List.getLast?_concat]
  simp only [Option.getD_some]
  rw [set_concat_self]
  simp

/-- C9: registering a fresh listener and then calling `Set(k, v)` notifies
that listener exactly once, with `(k, v)`, against the already committed
store (so it observes `Get(k) = v`); a successful `RemoveListener` makes a
subsequent `Set` notify it zero times. -/
theorem claim_C9_listener_notification {V : Type} (st : Storage V) (l : Nat)
    (k : String) (v : V) (k2 : String) (v2 : V) (hl : l ∉ st.listeners) :
    ((st.AddListener l).SetEvents k v).2.filter (fun ev => ev.1 == l)
        = [(l, k, v)] ∧
    lookupL ((st.AddListener l).SetEvents k v).1.values k = some v ∧
    (((st.AddListener l).SetEvents k v).1.RemoveListener l).1 = true ∧
    ((((st.AddListener l).SetEvents k v).1.RemoveListener l).2.SetEvents k2 v2).2.filter
        (fun ev => ev.1 == l) = [] := by
  have hlist1 : ((st.AddListener l).SetEvents k v).1.listeners
      = st.listeners ++ [l] := rfl
  have hfi : (st.listeners ++ [l]).findIdx (fun x => x == l)
      = st.listeners.length := findIdx_concat_self hl
  refine ⟨?_, ?_, ?_, ?_⟩
  · show (((st.listeners ++ [l]).map (fun x => (x, k, v))).filter
      (fun ev => ev.1 == l)) = [(l, k, v)]
    rw [filter_map_events, List.filter_append, filter_beq_nil hl]
    simp
  · exact lookupL_setL st.values k v
  · show ((⟨setL st.values k v, st.listeners ++ [l]⟩ : Storage V).RemoveListener l).1
      = true
    rw [Storage.RemoveListener]
    simp only [hfi]
    rw [if_pos (by simp)]
  · show ((((⟨setL st.values k v, st.listeners ++ [l]⟩ : Storage V).RemoveListener
      l).2).SetEvents k2 v2).2.filter (fun ev => ev.1 == l) = []
    rw [Storage.RemoveListener]
    simp only [hfi]
    rw [if_pos (by simp)]
    show (((Storage.fastRemove (st.listeners ++ [l]) st.listeners.length).map
      (fun x => (x, k2, v2))).filter (fun ev => ev.1 == l)) = []
    rw [fastRemove_concat, filter_map_events, filter_beq_nil hl]
    rfl

/-- Witness for C9 at a concrete input: a store with one unrelated listener,
fresh listener id `7`. -/
theorem claim_C9_witness :
    ((7 : Nat) ∉ [3]) ∧
    (((⟨[("z", 5)], [3]⟩ : Storage Nat).AddListener 7).SetEvents "a" 1).2.filter
        (fun ev => ev.1 == 7) = [(7, "a", 1)] := by
  refine ⟨by decide, ?_⟩
  exact (claim_C9_listener_notification (⟨[("z", 5)], [3]⟩ : Storage Nat) 7
    "a" 1 "b" 2 (by decide)).1

/-! ### Claims C6 and C7: per-entry step behaviour of the section loaders -/

/-- A Signatures entry either resolves — storing a non-null address under its
name with no message — or fails with exactly one message and an untouched
config. -/
lemma stepSig_spec (root : GameRoot) (plat : Platform) (cfg : ConfigState)
    (e : String × KeyValues3) :
    (∃ a, a ≠ 0 ∧ stepSignatures root plat cfg e = (setAddress cfg e.1 a, [])) ∨
    ((stepSignatures root plat cfg e).1 = cfg ∧
      ∃ m, (stepSignatures root plat cfg e).2 = [m]) := by
  cases h1 : findMemberL e.2.members "library" with
  | none =>
    right
    refine ⟨?_, "Failed to get \"library\" key into \"" ++ e.1 ++ "\"", ?_⟩ <;>
      simp [stepSignatures, h1]
  | some lv =>
    cases h2 : root.findLibrary (lv.getStringD "<none>") with
    | none =>
      right
      refine ⟨?_, "Not found \"" ++ lv.getStringD "<none>" ++ "\" library into \""
        ++ e.1 ++ "\"", ?_⟩ <;> simp [stepSignatures, h1, h2]
    | some lib =>
      cases h3 : findMemberL e.2.members (GetPlatformMemberName plat) with
      | none =>
        right
        refine ⟨?_, "Failed to get \"" ++ GetPlatformMemberName plat ++
          "\" key into \"" ++ e.1 ++ "\"", ?_⟩ <;> simp [stepSignatures, h1, h2, h3]
      | some pv =>
        by_cases h4 : lib.findPattern pv.getString = 0
        · right
          refine ⟨?_, "Failed to find \"" ++ e.1 ++ "\" by\"" ++ pv.getString ++
            "\" signature", ?_⟩ <;> simp [stepSignatures, h1, h2, h3, h4]
        · left
          refine ⟨lib.findPattern pv.getString, h4, ?_⟩
          simp [stepSignatures, h1, h2, h3, h4]

/-- A VTables entry either resolves or fails with one message, config
untouched. -/
lemma stepVT_spec (root : GameRoot) (cfg : ConfigState)
    (e : String × KeyValues3) :
    (∃ a, a ≠ 0 ∧ stepVTables root cfg e = (setAddress cfg e.1 a, [])) ∨
    ((stepVTables root cfg e).1 = cfg ∧
      ∃ m, (stepVTables root cfg e).2 = [m]) := by
  cases h1 : findMemberL e.2.members "library" with
  | none =>
    right
    refine ⟨?_, "Failed to get \"library\" key into \"" ++ e.1 ++ "\"", ?_⟩ <;>
      simp [stepVTables, h1]
  | some lv =>
    cases h2 : root.findLibrary (lv.getStringD "<none>") with
    | none =>
      right
      refine ⟨?_, "Not found \"" ++ lv.getStringD "<none>" ++ "\" library into \""
        ++ e.1 ++ "\"", ?_⟩ <;> simp [stepVTables, h1, h2]
    | some lib =>
      cases h3 : findMemberL e.2.members "name" with
      | none =>
        by_cases h4 : lib.getVTableByName e.1 = 0
        · right
          refine ⟨?_, "Failed to find \"" ++ e.1 ++ "\" by \"" ++ e.1 ++
            "\" vtable", ?_⟩ <;> simp [stepVTables, h1, h2, h3, h4]
        · left
          refine ⟨lib.getVTableByName e.1, h4, ?_⟩
          simp [stepVTables, h1, h2, h3, h4]
      | some nv =>
        by_cases h5 : nv.isString = true
        · by_cases h4 : lib.getVTableByName nv.getString = 0
          · right
            refine ⟨?_, "Failed to find \"" ++ e.1 ++ "\" by \"" ++ nv.getString ++
              "\" vtable", ?_⟩ <;> simp [stepVTables, h1, h2, h3, h5, h4]
          · left
            refine ⟨lib.getVTableByName nv.getString, h4, ?_⟩
            simp [stepVTables, h1, h2, h3, h5, h4]
        · by_cases h4 : lib.getVTableByName e.1 = 0
          · right
            refine ⟨?_, "Failed to find \"" ++ e.1 ++ "\" by \"" ++ e.1 ++
              "\" vtable", ?_⟩ <;> simp [stepVTables, h1, h2, h3, h5, h4]
          · left
            refine ⟨lib.getVTableByName e.1, h4, ?_⟩
            simp [stepVTables, h1, h2, h3, h5, h4]

/-- A Keys entry either stores the platform value verbatim or fails with one
message, config untouched. -/
lemma stepKeys_spec (plat : Platform) (cfg : ConfigState)
    (e : String × KeyValues3) :
    (∃ pv, findMemberL e.2.members (GetPlatformMemberName plat) = some pv ∧
      stepKeys plat cfg e = (setKeyVal cfg e.1 pv, [])) ∨
    ((stepKeys plat cfg e).1 = cfg ∧ ∃ m, (stepKeys plat cfg e).2 = [m]) := by
  cases h1 : findMemberL e.2.members (GetPlatformMemberName plat) with
  | none =>
    right
    rw [stepKeys, h1]
    exact ⟨rfl, _, rfl⟩
  | some pv =>
    left
    refine ⟨pv, rfl, ?_⟩
    rw [stepKeys, h1]

/-- An Offsets entry either stores the parsed/reinterpreted value or fails
with one message, config untouched. -/
lemma stepOff_spec (plat : Platform) (cfg : ConfigState)
    (e : String × KeyValues3) :
    (∃ z, stepOffsets plat cfg e = (setOffset cfg e.1 z, [])) ∨
    ((stepOffsets plat cfg e).1 = cfg ∧ ∃ m, (stepOffsets plat cfg e).2 = [m]) := by
  cases h1 : findMemberL e.2.members (GetPlatformMemberName plat) with
  | none =>
    right
    rw [stepOffsets, h1]
    exact ⟨rfl, _, rfl⟩
  | some pv =>
    left
    refine ⟨if pv.isString then ReadOffset pv.getString else toInt64 pv.getUInt64, ?_⟩
    rw [stepOffsets, h1]

/-- An Addresses entry either stores the cursor computed by the action
interpreter, appending nothing, or leaves the config untouched and appends a
header plus the tab-indented sub-message buffer. -/
lemma stepAddr_spec (plat : Platform) (mem : Mem) (cfg : ConfigState)
    (sub : List String) (e : String × KeyValues3) :
    (∃ a, (stepAddresses plat mem (cfg, sub) e).1.1 = setAddress cfg e.1 a ∧
      (stepAddresses plat mem (cfg, sub) e).2 = []) ∨
    ((stepAddresses plat mem (cfg, sub) e).1.1 = cfg ∧
      (stepAddresses plat mem (cfg, sub) e).2 ≠ []) := by
  by_cases hok : (LoadEngineAddressActions ⟨plat, mem, cfg.addrs.values⟩
      e.1 0 e.2).ok = true
  · left
    refine ⟨(LoadEngineAddressActions ⟨plat, mem, cfg.addrs.values⟩ e.1 0 e.2).cur,
      ?_, ?_⟩ <;>
      (rw [stepAddresses]; rw [if_pos hok])
  · right
    constructor
    · rw [stepAddresses]
      rw [if_neg hok]
    · rw [stepAddresses]
      rw [if_neg hok]
      exact List.cons_ne_nil _ _

/-- C6: in every section loader, a failed entry never writes to a store — the
config is unchanged and a diagnostic is appended instead — and a store write
happens only on the entry's success path (with no diagnostic). -/
theorem claim_C6_no_write_on_failure (root : GameRoot) (plat : Platform)
    (mem : Mem) (cfg : ConfigState) (sub : List String)
    (e : String × KeyValues3) :
    ((stepSignatures root plat cfg e).2 ≠ [] →
      (stepSignatures root plat cfg e).1 = cfg) ∧
    ((stepSignatures root plat cfg e).2 = [] →
      ∃ a, a ≠ 0 ∧ (stepSignatures root plat cfg e).1 = setAddress cfg e.1 a) ∧
    ((stepVTables root cfg e).2 ≠ [] → (stepVTables root cfg e).1 = cfg) ∧
    ((stepVTables root cfg e).2 = [] →
      ∃ a, a ≠ 0 ∧ (stepVTables root cfg e).1 = setAddress cfg e.1 a) ∧
    ((stepKeys plat cfg e).2 ≠ [] → (stepKeys plat cfg e).1 = cfg) ∧
    ((stepKeys plat cfg e).2 = [] →
      ∃ pv, (stepKeys plat cfg e).1 = setKeyVal cfg e.1 pv) ∧
    ((stepOffsets plat cfg e).2 ≠ [] → (stepOffsets plat cfg e).1 = cfg) ∧
    ((stepOffsets plat cfg e).2 = [] →
      ∃ z, (stepOffsets plat cfg e).1 = setOffset cfg e.1 z) ∧
    ((stepAddresses plat mem (cfg, sub) e).2 ≠ [] →
      (stepAddresses plat mem (cfg, sub) e).1.1 = cfg) ∧
    ((stepAddresses plat mem (cfg, sub) e).2 = [] →
      ∃ a, (stepAddresses plat mem (cfg, sub) e).1.1 = setAddress cfg e.1 a) := by
  refine ⟨?_, ?_, ?_, ?_, ?_, ?_, ?_, ?_, ?_, ?_⟩
  · intro hm
    rcases stepSig_spec root plat cfg e with ⟨a, _, hs⟩ | ⟨hc, _⟩
    · exact absurd (by rw [hs]) hm
    · exact hc
  · intro hm
    rcases stepSig_spec root plat cfg e with ⟨a, ha, hs⟩ | ⟨_, m, hmm⟩
    · exact ⟨a, ha, by rw [hs]⟩
    · rw [hmm] at hm; exact absurd hm (by simp)
  · intro hm
    rcases stepVT_spec root cfg e with ⟨a, _, hs⟩ | ⟨hc, _⟩
    · exact absurd (by rw [hs]) hm
    · exact hc
  · intro hm
    rcases stepVT_spec root cfg e with ⟨a, ha, hs⟩ | ⟨_, m, hmm⟩
    · exact ⟨a, ha, by rw [hs]⟩
    · rw [hmm] at hm; exact absurd hm (by simp)
  · intro hm
    rcases stepKeys_spec plat cfg e with ⟨pv, _, hs⟩ | ⟨hc, _⟩
    · exact absurd (by rw [hs]) hm
    · exact hc
  · intro hm
    rcases stepKeys_spec plat cfg e with ⟨pv, _, hs⟩ | ⟨_, m, hmm⟩
    · exact ⟨pv, by rw [hs]⟩
    · rw [hmm] at hm; exact absurd hm (by simp)
  · intro hm
    rcases stepOff_spec plat cfg e with ⟨z, hs⟩ | ⟨hc, _⟩
    · exact absurd (by rw [hs]) hm
    · exact hc
  · intro hm
    rcases stepOff_spec plat cfg e with ⟨z, hs⟩ | ⟨_, m, hmm⟩
    · exact ⟨z, by rw [hs]⟩
    · rw [hmm] at hm; exact absurd hm (by simp)
  · intro hm
    rcases stepAddr_spec plat mem cfg sub e with ⟨a, _, hs⟩ | ⟨hc, _⟩
    · exact absurd hs hm
    · exact hc
  · intro hm
    rcases stepAddr_spec plat mem cfg sub e with ⟨a, ha, _⟩ | ⟨_, hmm⟩
    · exact ⟨a, ha⟩
    · exact absurd hm hmm

/-- Witness for C6 at a concrete input: an entry with no `library` member
fails and leaves the config untouched. -/
theorem claim_C6_witness :
    (stepSignatures rootNone .windows64 cfgEmpty ("Foo", .obj [])).2 ≠ [] ∧
    (stepSignatures rootNone .windows64 cfgEmpty ("Foo", .obj [])).1 = cfgEmpty := by
  have h : (stepSignatures rootNone .windows64 cfgEmpty ("Foo", .obj [])).2 ≠ [] := by
    rw [stepSignatures]
    simp [findMemberL, KeyValues3.members]
  exact ⟨h, (claim_C6_no_write_on_failure rootNone .windows64 memZero cfgEmpty []
    ("Foo", .obj [])).1 h⟩

lemma isEmpty_true_iff {α : Type} (l : List α) : l.isEmpty = true ↔ l = [] := by
  cases l <;> simp

/-- Threading the message accumulator through `runEntries`. -/
lemma runEntries_shift
    (step : ConfigState → String × KeyValues3 → ConfigState × List String) :
    ∀ (entries : List (String × KeyValues3)) (cfg : ConfigState)
      (ms0 : List String),
      entries.foldl (fun acc e =>
        let r := step acc.1 e
        (r.1, acc.2 ++ r.2)) (cfg, ms0)
        = ((runEntries step cfg entries).1,
           ms0 ++ (runEntries step cfg entries).2) := by
  intro entries
  induction entries with
  | nil =>
    intro cfg ms0
    simp [runEntries]
  | cons e es ih =>
    intro cfg ms0
    simp only [runEntries, List.foldl_cons, List.nil_append]
    rw [ih, ih]
    simp [List.append_assoc]

/-- Processing an entry list is one step followed by the rest, messages
concatenated — the loop never aborts early. -/
lemma runEntries_cons
    (step : ConfigState → String × KeyValues3 → ConfigState × List String)
    (cfg : ConfigState) (e : String × KeyValues3)
    (rest : List (String × KeyValues3)) :
    runEntries step cfg (e :: rest)
      = ((runEntries step (step cfg e).1 rest).1,
         (step cfg e).2 ++ (runEntries step (step cfg e).1 rest).2) := by
  rw [runEntries]
  simp only [List.foldl_cons, List.nil_append]
  exact runEntries_shift step rest (step cfg e).1 (step cfg e).2

/-- C7: the Signatures loader returns `false` exactly on an empty section;
processing an entry list is one entry step followed by the remaining entries
(so entries after a failed one are still resolved from the stepped state);
and a failing entry contributes exactly one message while leaving the config
untouched. -/
theorem claim_C7_signatures_resilience (root : GameRoot) (plat : Platform)
    (cfg : ConfigState) (kv : KeyValues3) (e : String × KeyValues3)
    (rest : List (String × KeyValues3)) :
    ((LoadEngineSignatures root plat cfg kv).ok = false ↔ kv.members = []) ∧
    ((LoadEngineSignatures root plat cfg (.obj (e :: rest))).cfg
      = (LoadEngineSignatures root plat (stepSignatures root plat cfg e).1
          (.obj rest)).cfg) ∧
    (rest ≠ [] →
      (LoadEngineSignatures root plat cfg (.obj (e :: rest))).msgs
        = (stepSignatures root plat cfg e).2 ++
          (LoadEngineSignatures root plat (stepSignatures root plat cfg e).1
            (.obj rest)).msgs) ∧
    ((stepSignatures root plat cfg e).2 ≠ [] →
      (stepSignatures root plat cfg e).1 = cfg ∧
        ∃ m, (stepSignatures root plat cfg e).2 = [m]) := by
  refine ⟨?_, ?_, ?_, ?_⟩
  · by_cases h : kv.members = []
    · rw [LoadEngineSignatures, if_pos (by rw [h]; rfl)]
      simp [h]
    · rw [LoadEngineSignatures,
        if_neg (fun hc => h ((isEmpty_true_iff kv.members).mp hc))]
      simp [h]
  · rw [LoadEngineSignatures,
      if_neg (by simp [KeyValues3.members])]
    simp only [KeyValues3.members]
    rw [runEntries_cons]
    by_cases hr : rest = []
    · subst hr
      rw [LoadEngineSignatures, if_pos (by rfl)]
      simp [runEntries]
    · rw [LoadEngineSignatures,
        if_neg (fun hc => hr ((isEmpty_true_iff _).mp (by simpa using hc)))]
      rfl
  · intro hr
    rw [LoadEngineSignatures,
      if_neg (by simp [KeyValues3.members])]
    simp only [KeyValues3.members]
    rw [runEntries_cons]
    rw [LoadEngineSignatures,
      if_neg (fun hc => hr ((isEmpty_true_iff _).mp (by simpa using hc)))]
    rfl
  · intro hm
    rcases stepSig_spec root plat cfg e with ⟨a, _, hs⟩ | ⟨hc, hms⟩
    · exact absurd (by rw [hs]) hm
    · exact ⟨hc, hms⟩

/-- Witness for C7 at a concrete input: a two-entry section whose first entry
fails (no `library`); the message decomposition applies with a nonempty
tail. -/
theorem claim_C7_witness :
    ([(("B" : String), KeyValues3.obj [])] ≠ []) ∧
    (LoadEngineSignatures rootNone .windows64 cfgEmpty
        (.obj (("A", .obj []) :: [("B", .obj [])]))).msgs
      = (stepSignatures rootNone .windows64 cfgEmpty ("A", .obj [])).2 ++
        (LoadEngineSignatures rootNone .windows64
          (stepSignatures rootNone .windows64 cfgEmpty ("A", .obj [])).1
          (.obj [("B", .obj [])])).msgs := by
  refine ⟨by simp, ?_⟩
  exact (claim_C7_signatures_resilience rootNone .windows64 cfgEmpty
    (.obj []) ("A", .obj []) [("B", .obj [])]).2.2.1 (by simp)

/-! ### Claim C3 -/

/-- One section-loop iteration only ever adds a failure header or a
tab-indented line to the output messages. -/
lemma stepSection_msgs (ev : KeyValues3)
    (acc : ConfigState × List String × List String)
    (s : String × (ConfigState → KeyValues3 → SectionRes)) (m : String)
    (hm : m ∈ (stepSection ev acc s).2.1) :
    m ∈ acc.2.1 ∨ (∃ r, m = "Failed to load \"" ++ r) ∨
      (∃ r, m = "\t" ++ r) := by
  cases h1 : findMemberL ev.members s.1 with
  | none =>
    have he : stepSection ev acc s = acc := by
      rw [stepSection, h1]
    rw [he] at hm
    exact Or.inl hm
  | some kv =>
    by_cases h2 : (s.2 acc.1 kv).ok = true
    · have he : (stepSection ev acc s).2.1 = acc.2.1 := by
        simp [stepSection, h1, h2]
      rw [he] at hm
      exact Or.inl hm
    · have he : (stepSection ev acc s).2.1
          = acc.2.1 ++ ("Failed to load \"" ++ s.1 ++ "\" section:") ::
            (acc.2.2 ++ (s.2 acc.1 kv).msgs).map (fun x => "\t" ++ x) := by
        simp [stepSection, h1, h2]
      rw [he] at hm
      rcases List.mem_append.mp hm with h | h
      · exact Or.inl h
      · rcases List.mem_cons.mp h with h | h
        · refine Or.inr (Or.inl ⟨s.1 ++ "\" section:", ?_⟩)
          rw [h, String.append_assoc]
        · rcases List.mem_map.mp h with ⟨x, _, hx⟩
          exact Or.inr (Or.inr ⟨x, hx.symm⟩)

/-- The section loop preserves the header-or-indented shape of the output
messages. -/
lemma foldl_sections_msgs (ev : KeyValues3) :
    ∀ (sections : List (String × (ConfigState → KeyValues3 → SectionRes)))
      (acc : ConfigState × List String × List String),
      (∀ m ∈ acc.2.1, (∃ r, m = "Failed to load \"" ++ r) ∨
        (∃ r, m = "\t" ++ r)) →
      ∀ m ∈ (sections.foldl (stepSection ev) acc).2.1,
        (∃ r, m = "Failed to load \"" ++ r) ∨ (∃ r, m = "\t" ++ r) := by
  intro sections
  induction sections with
  | nil =>
    intro acc hacc m hm
    exact hacc m hm
  | cons s ss ih =>
    intro acc hacc
    rw [List.foldl_cons]
    apply ih
    intro m hm
    rcases stepSection_msgs ev acc s m hm with h | h
    · exact hacc m h
    · exact h

/-- C3 counterexample: with the engine section present, `Load` reports
success, but the failing `Offsets` section's contribution is not limited to
its own sub-messages — the never-cleared sub-message buffer makes it also
flush the earlier Signatures entry message under the Offsets header. -/
theorem claim_C3_counterexample :
    (Load rootNone .windows64 memZero .csgo cfgEmpty docC3cex).1 = true ∧
    (Load rootNone .windows64 memZero .csgo cfgEmpty docC3cex).2.2
      = ["Failed to load \"Offsets\" section:",
         "\tFailed to get \"library\" key into \"Foo\"",
         "\tOffsets section is empty"] ∧
    (Load rootNone .windows64 memZero .csgo cfgEmpty docC3cex).2.2
      ≠ ["Failed to load \"Offsets\" section:",
         "\tOffsets section is empty"] := by
  refine ⟨rfl, rfl, by decide⟩

/-- C3 as amended: `Load` returns `false` exactly when the engine section is
absent, appending exactly one diagnostic line in that case; when the section
is present `Load` returns `true` no matter how many section loaders fail, and
every appended diagnostic is either a section-failure header or a
tab-indented line flushed from the shared (never cleared) sub-message
buffer, which may also carry messages of earlier sections. -/
theorem claim_C3_load_verdict (root : GameRoot) (plat : Platform) (mem : Mem)
    (game : Game) (cfg : ConfigState) (doc : KeyValues3) :
    ((Load root plat mem game cfg doc).1 = false ↔
      findMemberL doc.members (GetSourceEngineMemberName game) = none) ∧
    (findMemberL doc.members (GetSourceEngineMemberName game) = none →
      (Load root plat mem game cfg doc).2.2
        = ["Failed to find \"" ++ GetSourceEngineMemberName game ++ "\" section"]) ∧
    (∀ ev, findMemberL doc.members (GetSourceEngineMemberName game) = some ev →
      (Load root plat mem game cfg doc).1 = true) ∧
    (∀ ev, findMemberL doc.members (GetSourceEngineMemberName game) = some ev →
      ∀ m ∈ (Load root plat mem game cfg doc).2.2,
        (∃ r, m = "Failed to load \"" ++ r) ∨ (∃ r, m = "\t" ++ r)) := by
  cases h : findMemberL doc.members (GetSourceEngineMemberName game) with
  | none =>
    refine ⟨by simp [Load, h], fun _ => by simp [Load, h], ?_, ?_⟩
    · intro ev hev
      exact absurd hev (by simp)
    · intro ev hev
      exact absurd hev (by simp)
  | some ev =>
    refine ⟨by simp [Load, h, LoadEngine], ?_, ?_, ?_⟩
    · intro hn
      exact absurd hn (by simp)
    · intro ev' hev
      simp [Load, h, LoadEngine]
    · intro ev' hev m hm
      have hev' : ev' = ev := (Option.some_inj.mp hev).symm
      subst hev'
      have hmsgs : (Load root plat mem game cfg doc).2.2
          = ((engineSections root plat mem).foldl (stepSection ev')
              (cfg, [], [])).2.1 := by
        simp [Load, h, LoadEngine]
      rw [hmsgs] at hm
      exact foldl_sections_msgs ev' (engineSections root plat mem)
        (cfg, [], []) (by intro x hx; exact absurd hx (by simp)) m hm

/-- Witness for C3 at a concrete input: an empty root document has no engine
section, so `Load` fails with exactly one message. -/
theorem claim_C3_witness :
    findMemberL (KeyValues3.obj []).members "csgo" = none ∧
    (Load rootNone .windows64 memZero .csgo cfgEmpty (.obj [])).2.2
      = ["Failed to find \"csgo\" section"] := by
  refine ⟨rfl, ?_⟩
  exact (claim_C3_load_verdict rootNone .windows64 memZero .csgo cfgEmpty
    (.obj [])).2.1 rfl

/-! ### Claim C10 -/

lemma findMemberL_none_of (ms : List (String × KeyValues3)) (key : String)
    (h : ∀ m ∈ ms, m.1 ≠ key) : findMemberL ms key = none := by
  induction ms with
  | nil => rfl
  | cons a rest ih =>
    obtain ⟨n, v⟩ := a
    rw [findMemberL,
      if_neg (h (n, v) (List.mem_cons_self _ _))]
    exact ih (fun m hm => h m (List.mem_cons_of_mem _ hm))

lemma prunePlats_nil_of (plat : Platform) :
    ∀ (ms : List (String × KeyValues3)),
      (∀ m ∈ ms, m.1 ∈ otherPlatformKeys plat) → prunePlats plat ms = [] := by
  intro ms
  induction ms with
  | nil => intro _; rfl
  | cons a rest ih =>
    intro h
    have ha : ((otherPlatformKeys plat).contains a.1) = true := by
      simpa using h a (List.mem_cons_self a rest)
    have hr := ih (fun m hm => h m (List.mem_cons_of_mem a hm))
    rw [prunePlats] at hr ⊢
    rw [List.filter_cons]
    simp only [ha, Bool.not_true, Bool.false_eq_true, if_false]
    exact hr

lemma signature_not_platform_key (plat : Platform) :
    ("signature" : String) ∉ otherPlatformKeys plat := by
  cases plat <;> decide

/-- C10: an Addresses entry with no `signature` member whose members all
carry other-platform keys resolves successfully with the cursor still at its
initial `0`, and the Addresses loader then stores address `0` under the
entry's name; an entry with no members at all fails with a
"Section is empty" diagnostic. -/
theorem claim_C10_other_platform_only (plat : Platform) (mem : Mem)
    (cfg : ConfigState) (nm : String) (ms : List (String × KeyValues3))
    (hne : ms ≠ []) (hplat : ∀ m ∈ ms, m.1 ∈ otherPlatformKeys plat) :
    LoadEngineAddressActions ⟨plat, mem, cfg.addrs.values⟩ nm 0 (.obj ms)
      = ⟨true, 0, []⟩ ∧
    LoadEngineAddresses plat mem cfg (.obj [(nm, .obj ms)])
      = ⟨true, setAddress cfg nm 0, []⟩ ∧
    LoadEngineAddressActions ⟨plat, mem, cfg.addrs.values⟩ nm 0 (.obj [])
      = ⟨false, 0, ["Section is empty"]⟩ := by
  have hempty : ms.isEmpty = false := by
    cases ms with
    | nil => exact absurd rfl hne
    | cons a l => rfl
  have hsig : findMemberL ms "signature" = none :=
    findMemberL_none_of ms "signature" (fun m hm he =>
      signature_not_platform_key plat (he ▸ hplat m hm))
  have hprune : prunePlats plat ms = [] := prunePlats_nil_of plat ms hplat
  have h1 : LoadEngineAddressActions ⟨plat, mem, cfg.addrs.values⟩ nm 0 (.obj ms)
      = ⟨true, 0, []⟩ := by
    rw [LoadEngineAddressActions]
    rw [hempty, hsig, hprune]
    rfl
  refine ⟨h1, ?_, ?_⟩
  · rw [LoadEngineAddresses]
    rw [if_neg (by simp [KeyValues3.members])]
    simp only [KeyValues3.members, List.foldl_cons, List.foldl_nil]
    rw [stepAddresses]
    simp only [h1]
    rfl
  · rw [LoadEngineAddressActions]
    rfl

/-- Witness for C10 at a concrete input: an entry holding only a
`linuxsteamrt64` subtree, resolved under Windows. -/
theorem claim_C10_witness :
    (([(("linuxsteamrt64" : String), KeyValues3.num 1)] :
        List (String × KeyValues3)) ≠ [] ∧
      ∀ m ∈ ([(("linuxsteamrt64" : String), KeyValues3.num 1)] :
        List (String × KeyValues3)), m.1 ∈ otherPlatformKeys .windows64) ∧
    LoadEngineAddresses .windows64 memZero cfgEmpty
        (.obj [("A", .obj [("linuxsteamrt64", .num 1)])])
      = ⟨true, setAddress cfgEmpty "A" 0, []⟩ := by
  have hp : ∀ m ∈ ([(("linuxsteamrt64" : String), KeyValues3.num 1)] :
      List (String × KeyValues3)), m.1 ∈ otherPlatformKeys .windows64 := by
    intro m hm
    rw [List.mem_singleton] at hm
    subst hm
    decide
  refine ⟨⟨by simp, hp⟩, ?_⟩
  exact (claim_C10_other_platform_only .windows64 memZero cfgEmpty "A"
    [("linuxsteamrt64", .num 1)] (by simp) hp).2.1

end GameData
